import Mathlib

/-!
Verification of the photo-import session core (src/photo_import/main.py).

The import-session orchestration engine is shallowly embedded: pure parts of
the Python code become Lean functions, the interactions with the external
transfer tool (subprocess stdout, exit status), the operator (confirmation
prompts) and the filesystem (source existence, mountpoint choice) become
explicit session inputs.  Machine-level details that the claims do not touch
(ISO-8601 rendering, the resolved rclone path) are modelled by abstract but
executable stand-ins, documented at each definition.
-/

namespace PhotoImport

/-- Timestamps model `datetime.datetime` values.  Only their linear order and
their rendered form matter to the verified code, so they are embedded as `Int`. -/
abbrev Timestamp := Int

/-- Models `datetime.isoformat()`: an injective textual rendering of a timestamp. -/
def isoformat (t : Timestamp) : String := toString t

/-- Models the result of `shutil.which("rclone")`: the resolved executable path
placed at the head of every built command. -/
def rcloneExe : String := "rclone"

/-- Models `pathlib` joining `a / b` for a relative right operand
(`Path(options[choice]) / scenario_data.source`, `target_root / scenario`). -/
def pathJoin (a b : String) : String := a ++ "/" ++ b

/-- Python `str.split(sep)` on a character list: splits at every separator
occurrence, keeping empty fields (so `"".split(";") == [""]`). -/
def pySplitChars (sep : Char) : List Char → List (List Char)
  | [] => [[]]
  | c :: rest =>
    let r := pySplitChars sep rest
    if c = sep then [] :: r
    else
      match r with
      | [] => [[c]]
      | h :: t => (c :: h) :: t

/-- Python `str.split(sep)` for a one-character separator. -/
def pySplit (sep : Char) (s : String) : List String :=
  (pySplitChars sep s.toList).map String.mk

/-- Models `pathlib.Path(p).suffix`: the part of the last path component from
its final dot onward, empty when the final component has no dot, starts with a
dot, or ends with its only trailing dot. -/
def pySuffix (p : String) : String :=
  let name := (pySplit '/' p).getLastD ""
  let cs := name.toList
  let n := cs.length
  let dotIdxs := (List.range n).filter fun i => cs.getD i ' ' = '.'
  match dotIdxs.getLast? with
  | some i => if 0 < i ∧ i < n - 1 then String.mk (cs.drop i) else ""
  | none => ""

/-- Models `file_path.suffix.lower().lstrip(".")` from the scan loop:
the normalized extension of a listed file path. -/
def normalizeExt (p : String) : String :=
  String.mk (((pySuffix p).toList.map Char.toLower).dropWhile fun c => c = '.')

/-- `ScanResult` dataclass: per-extension counts (insertion-ordered, like the
Python `defaultdict(int)`), and the extremal modification timestamps seen. -/
structure ScanResult where
  found_extensions : List (String × Nat)
  oldest : Option Timestamp
  newest : Option Timestamp
deriving Repr, DecidableEq

/-- The scan failure: a listing line that does not parse raises out of the scan
loop (`line.split(";")` unpacking or `datetime.fromisoformat` failing). -/
inductive ScanError where
  | malformedLine (line : String) : ScanError
deriving Repr, DecidableEq

/-- Models `found_extensions[key] += 1` on a `defaultdict(int)`: bump an existing
key in place, or append a new key with count 1. -/
def bumpExt : List (String × Nat) → String → List (String × Nat)
  | [], k => [(k, 1)]
  | (k', c) :: rest, k =>
    if k' = k then (k', c + 1) :: rest else (k', c) :: bumpExt rest k

/-- One listing line, parsed: `timestamp_str, file_path_str = line.split(";")`
(raises unless there are exactly two fields) then
`datetime.fromisoformat(timestamp_str)` (raises when unparsable).  The argument
`parseTs` abstracts `datetime.fromisoformat`; `none` models the raise. -/
def parseLine (parseTs : String → Option Timestamp) (line : String) :
    Option (Timestamp × String) :=
  match pySplit ';' line with
  | [timestamp_str, file_path_str] =>
    match parseTs timestamp_str with
    | some mtime => some (mtime, file_path_str)
    | none => none
  | _ => none

/-- The oldest-bound update of the scan loop body:
set when previously absent, then lowered when the new time is smaller. -/
def updOldest (cur : Option Timestamp) (mtime : Timestamp) : Option Timestamp :=
  let o := cur.getD mtime
  some (if mtime < o then mtime else o)

/-- The newest-bound update of the scan loop body:
set when previously absent, then raised when the new time is larger. -/
def updNewest (cur : Option Timestamp) (mtime : Timestamp) : Option Timestamp :=
  let n := cur.getD mtime
  some (if n < mtime then mtime else n)

/-- One iteration of the scan loop over a successfully parsed line. -/
def scanStep (r : ScanResult) (mtime : Timestamp) (filePath : String) : ScanResult :=
  ⟨bumpExt r.found_extensions (normalizeExt filePath),
   updOldest r.oldest mtime,
   updNewest r.newest mtime⟩

/-- The `for line in proc.stdout.splitlines()` loop of `scan_source_dir`.
A line that fails to parse raises, aborting the whole scan: embedded as
`Except.error`, discarding the partially accumulated state exactly as the
escaping exception does. -/
def scanLines (parseTs : String → Option Timestamp) :
    List String → ScanResult → Except ScanError ScanResult
  | [], r => .ok r
  | line :: rest, r =>
    match parseLine parseTs line with
    | none => .error (.malformedLine line)
    | some (mtime, filePath) => scanLines parseTs rest (scanStep r mtime filePath)

/-- `scan_source_dir` over the listing lines the external tool printed.
The subprocess stdout is a session input; the time-window arguments passed to
the listing invocation do not affect how its output is folded, so they do not
appear here. -/
def scan_source_dir (parseTs : String → Option Timestamp)
    (stdoutLines : List String) : Except ScanError ScanResult :=
  scanLines parseTs stdoutLines ⟨[], none, none⟩

/-- The extension classifier:
`unexpected = set(found) - set(include)` then `unexpected -= set(exclude)`. -/
def classify (found : Finset String) (include_ exclude_ : List String) :
    Finset String :=
  (found \ include_.toFinset) \ exclude_.toFinset

/-- The found-extension set fed to the classifier:
`set(scan_result.found_extensions.keys())`. -/
def foundSet (r : ScanResult) : Finset String :=
  (r.found_extensions.map Prod.fst).toFinset

/-- A legal iteration order of the Python set `set(xs)`: each distinct element
of `xs` exactly once, in an unspecified (hash-dependent) order.  The loop
`for include_format in include_formats` is modelled by quantifying over such
orders. -/
def IsSetIterOrder (xs order : List String) : Prop :=
  order.Nodup ∧ (∀ e ∈ order, e ∈ xs) ∧ ∀ e ∈ xs, e ∈ order

instance (xs order : List String) : Decidable (IsSetIterOrder xs order) :=
  decidable_of_iff
    (order.Nodup ∧ (∀ e ∈ order, e ∈ xs) ∧ ∀ e ∈ xs, e ∈ order) Iff.rfl

/-- The transfer command builder (`cmd = [...]` block of the import command):
fixed head, optional dry-run flag, optional time bounds, one inclusion filter
per iterated element of `set(include)`, then the two endpoint paths.
`includeOrder` is the set-iteration order observed during the session. -/
def buildCmd (dry_run : Bool) (from_ to_ : Option Timestamp)
    (includeOrder : List String) (src dst : String) : List String :=
  let cmd := [rcloneExe, "--ignore-case", "copy", "-vv"]
  let cmd := if dry_run then cmd ++ ["--dry-run"] else cmd
  let cmd :=
    match from_ with
    | some f => cmd ++ ["--max-age", isoformat f]
    | none => cmd
  let cmd :=
    match to_ with
    | some t => cmd ++ ["--min-age", isoformat t]
    | none => cmd
  let cmd := includeOrder.foldl (fun acc e => acc ++ ["--include", "*." ++ e]) cmd
  cmd ++ [src, dst]

/-- The part of the built command before the inclusion filters. -/
def baseCmd (dry_run : Bool) (from_ to_ : Option Timestamp) : List String :=
  let cmd := [rcloneExe, "--ignore-case", "copy", "-vv"]
  let cmd := if dry_run then cmd ++ ["--dry-run"] else cmd
  let cmd :=
    match from_ with
    | some f => cmd ++ ["--max-age", isoformat f]
    | none => cmd
  match to_ with
  | some t => cmd ++ ["--min-age", isoformat t]
  | none => cmd

/-- The inclusion-filter section: one `--include *.<ext>` pair per iterated element. -/
def includeArgs (includeOrder : List String) : List String :=
  includeOrder.flatMap fun e => ["--include", "*." ++ e]

/-- The time-bound section of the built command. -/
def timeArgs (from_ to_ : Option Timestamp) : List String :=
  (match from_ with
   | some f => ["--max-age", isoformat f]
   | none => []) ++
  match to_ with
  | some t => ["--min-age", isoformat t]
  | none => []

/-- The user configuration consumed by the import command (already validated). -/
structure UserConfig where
  target_root : String
  include_ : List String
  exclude_ : List String
  scenarios : List (String × String)

/-- The external inputs of one session: the chosen source root, whether the
resolved source path exists, the timestamp parser (abstracting
`datetime.fromisoformat`), the listing stdout, the observed iteration order of
`set(include)`, the two operator confirmations, and the transfer tool's exit
status. -/
structure SessionEnv where
  mountpoint : String
  sourceExists : Bool
  parseTs : String → Option Timestamp
  stdoutLines : List String
  includeIterOrder : List String
  confirm1 : Bool
  confirm2 : Bool
  toolExit : Nat

/-- Observable outcome of one session of the import command. -/
inductive SessionOutcome where
  | unknownScenario
  | sourceUnavailable
  | scanError (e : ScanError)
  | aborted
  | completed (cmd : List String) (toolExit : Nat)
deriving Repr, DecidableEq

/-- The import command body, step by step: scenario lookup (KeyError exits),
target and source path construction, source-existence check (exits), scan
(an escaping parse exception aborts), unexpected-extension classification
(display only), first confirmation, command construction, second confirmation,
then `sp.run(cmd)`.  The completed outcome records the command handed to the
transfer tool and that tool's exit status. -/
def import_ (cfg : UserConfig) (scenario : String) (from_ to_ : Option Timestamp)
    (dry_run : Bool) (env : SessionEnv) : SessionOutcome :=
  match List.lookup scenario cfg.scenarios with
  | none => .unknownScenario
  | some sourceRel =>
    let target := pathJoin cfg.target_root scenario
    let scenario_source := pathJoin env.mountpoint sourceRel
    if !env.sourceExists then .sourceUnavailable
    else
      match scan_source_dir env.parseTs env.stdoutLines with
      | .error e => .scanError e
      | .ok scan_result =>
        let _unexpected := classify (foundSet scan_result) cfg.include_ cfg.exclude_
        if !env.confirm1 then .aborted
        else
          let cmd := buildCmd dry_run from_ to_ env.includeIterOrder scenario_source target
          if !env.confirm2 then .aborted
          else .completed cmd env.toolExit

/-- The process exit status of a session: `sys.exit(1)` on unknown scenario and
missing source, an uncaught scan exception and a declined `click.confirm`
both terminate with status 1, and a session that reaches `sp.run(cmd)` falls
through to a normal return — status 0 — because the code never inspects the
subprocess's returncode. -/
def exitCode : SessionOutcome → Nat
  | .unknownScenario => 1
  | .sourceUnavailable => 1
  | .scanError _ => 1
  | .aborted => 1
  | .completed _ _ => 0

/-- A simple concrete timestamp parser (decimal digits), used to instantiate
the abstract `parseTs` on concrete session inputs. -/
def digitsVal : List Char → Nat → Option Nat
  | [], acc => some acc
  | c :: rest, acc =>
    if c.isDigit then digitsVal rest (acc * 10 + (c.toNat - 48)) else none

/-- A concrete instantiation of the abstract timestamp parser. -/
def decTs (s : String) : Option Timestamp :=
  match s.toList with
  | [] => none
  | cs => (digitsVal cs 0).map Int.ofNat

/-- Modelled from the spec: the Session History Store of §4.5 is not among the
provided sources (only the spec's design notes reference the original
read/append history implementation).  A scenario's store is its history file's
content, `none` when the file does not exist; `read` on a non-existent store
returns the empty sequence. -/
def historyRead (content : Option (List String)) : List String := content.getD []

/-- Modelled from the spec: `append` reads the existing bounded sequence, adds
the new record at the end, and truncates from the front to retain at most
`max_entries`, then rewrites the full sequence. -/
def historyAppend (content : Option (List String)) (record : String)
    (max_entries : Nat) : List String :=
  let s := historyRead content ++ [record]
  s.drop (s.length - max_entries)

/-- Appending a batch of records one by one, oldest first. -/
def appendMany (content : Option (List String)) (records : List String)
    (max_entries : Nat) : Option (List String) :=
  records.foldl (fun c r => some (historyAppend c r max_entries)) content

/-- The last `n` elements of a list. -/
def lastN (n : Nat) (l : List String) : List String := l.drop (l.length - n)

/-- Whether the scan as a whole failed (no result object was produced). -/
def isScanFailure : Except ScanError ScanResult → Bool
  | .error _ => true
  | .ok _ => false

/-- A scan state with both bounds set, correctly ordered, and a nonempty
extension table.  Every loop iteration establishes it. -/
def GoodScan (r : ScanResult) : Prop :=
  ∃ o n, r.oldest = some o ∧ r.newest = some n ∧ o ≤ n ∧ r.found_extensions ≠ []

/-- Insertion of the dry-run flag at its fixed position, right after the fixed
command head. -/
def insertDryRun (cmd : List String) : List String :=
  cmd.take 4 ++ ["--dry-run"] ++ cmd.drop 4

/-- The outcome of the same session with the dry-run flag switched on:
identical except that a completed session's command gains the flag. -/
def withDryRun : SessionOutcome → SessionOutcome
  | .completed cmd te => .completed (insertDryRun cmd) te
  | o => o

lemma bumpExt_ne_nil (m : List (String × Nat)) (k : String) : bumpExt m k ≠ [] := by
  cases m with
  | nil => simp [bumpExt]
  | cons p rest =>
    obtain ⟨k', c⟩ := p
    unfold bumpExt
    split <;> simp

lemma updOldest_le_updNewest (co cn : Option Timestamp) (m : Timestamp) :
    ∃ o n, updOldest co m = some o ∧ updNewest cn m = some n ∧ o ≤ n := by
  cases co <;> cases cn <;>
    · simp only [updOldest, updNewest, Option.getD_some, Option.getD_none]
      refine ⟨_, _, rfl, rfl, ?_⟩
      split_ifs <;> linarith

lemma scanStep_good (r : ScanResult) (m : Timestamp) (p : String) :
    GoodScan (scanStep r m p) := by
  obtain ⟨o, n, ho, hn, hon⟩ := updOldest_le_updNewest r.oldest r.newest m
  exact ⟨o, n, ho, hn, hon, bumpExt_ne_nil _ _⟩

lemma scanLines_good (parseTs : String → Option Timestamp) :
    ∀ (lines : List String) (r₀ r : ScanResult), GoodScan r₀ →
      scanLines parseTs lines r₀ = .ok r → GoodScan r
  | [], r₀, r, hg, h => by
    simp only [scanLines, Except.ok.injEq] at h
    rwa [← h]
  | line :: rest, r₀, r, hg, h => by
    unfold scanLines at h
    cases hp : parseLine parseTs line with
    | none => rw [hp] at h; cases h
    | some v =>
      obtain ⟨m, fp⟩ := v
      rw [hp] at h
      exact scanLines_good parseTs rest _ r (scanStep_good r₀ m fp) h

lemma scanLines_error_of_bad (parseTs : String → Option Timestamp) :
    ∀ (lines : List String) (r₀ : ScanResult),
      (∃ l ∈ lines, parseLine parseTs l = none) →
      ∃ bad ∈ lines, parseLine parseTs bad = none ∧
        scanLines parseTs lines r₀ = .error (.malformedLine bad)
  | [], _, h => by simp at h
  | line :: rest, r₀, h => by
    cases hp : parseLine parseTs line with
    | none =>
      refine ⟨line, List.mem_cons_self _ _, hp, ?_⟩
      unfold scanLines
      rw [hp]
    | some v =>
      obtain ⟨l, hl, hpl⟩ := h
      have hl' : l ∈ rest := by
        rcases List.mem_cons.mp hl with rfl | hl'
        · rw [hp] at hpl; cases hpl
        · exact hl'
      obtain ⟨bad, hbad, hbp, herr⟩ :=
        scanLines_error_of_bad parseTs rest (scanStep r₀ v.1 v.2) ⟨l, hl', hpl⟩
      refine ⟨bad, List.mem_cons_of_mem _ hbad, hbp, ?_⟩
      unfold scanLines
      rw [hp]
      exact herr

/-- Claim C5: for all extension sets `F` (found), `I` (include), `E` (exclude),
the classifier satisfies `classify F I E = F - I - E`, is independent of element
order, returns the empty set whenever `F ⊆ I ∪ E` (in particular when `F` is
empty), and an extension present in both `I` and `E` is never reported as
unexpected. -/
theorem classify_set_law (F : Finset String) (I E : List String) :
    classify F I E = F \ (I.toFinset ∪ E.toFinset) ∧
    (∀ I' E' : List String, I.Perm I' → E.Perm E' →
      classify F I E = classify F I' E') ∧
    (F ⊆ I.toFinset ∪ E.toFinset → classify F I E = ∅) ∧
    classify ∅ I E = ∅ ∧
    ∀ x, x ∈ I.toFinset → x ∈ E.toFinset → x ∉ classify F I E := by
  have hlaw : classify F I E = F \ (I.toFinset ∪ E.toFinset) := by
    ext x
    simp only [classify, Finset.mem_sdiff, Finset.mem_union]
    tauto
  refine ⟨hlaw, ?_, ?_, ?_, ?_⟩
  · intro I' E' hI hE
    simp only [classify, List.toFinset_eq_of_perm _ _ hI, List.toFinset_eq_of_perm _ _ hE]
  · intro hsub
    rw [hlaw]
    exact Finset.sdiff_eq_empty_iff_subset.mpr hsub
  · simp [classify]
  · intro x hI _ hx
    rw [hlaw] at hx
    exact (Finset.mem_sdiff.mp hx).2 (Finset.mem_union_left _ hI)

/-- Witness for C5 at the spec's kitten-import example. -/
theorem classify_set_law_witness :
    classify {"jpg", "raw", "db", "tmp"} ["jpg", "raw"] ["db"] =
      {"jpg", "raw", "db", "tmp"} \
        (["jpg", "raw"].toFinset ∪ ["db"].toFinset) ∧
    classify {"jpg", "raw", "db", "tmp"} ["jpg", "raw"] ["db"] =
      classify {"jpg", "raw", "db", "tmp"} ["raw", "jpg"] ["db"] ∧
    classify {"jpg", "db"} ["jpg"] ["db"] = ∅ ∧
    classify ∅ ["jpg", "raw"] ["db"] = ∅ ∧
    "db" ∉ classify {"jpg", "raw", "db", "tmp"} ["jpg", "db"] ["db", "x"] := by
  refine ⟨(classify_set_law {"jpg", "raw", "db", "tmp"} ["jpg", "raw"] ["db"]).1,
    (classify_set_law {"jpg", "raw", "db", "tmp"} ["jpg", "raw"] ["db"]).2.1
      ["raw", "jpg"] ["db"] (by decide) (by decide),
    (classify_set_law {"jpg", "db"} ["jpg"] ["db"]).2.2.1 (by decide),
    (classify_set_law ∅ ["jpg", "raw"] ["db"]).2.2.2.1,
    (classify_set_law {"jpg", "raw", "db", "tmp"} ["jpg", "db"] ["db", "x"]).2.2.2.2
      "db" (by decide) (by decide)⟩

/-- Claim C6: a scan over at least one listed file yields a result with both
bounds set and `oldest ≤ newest`; a scan over zero files yields the result with
empty `found_extensions` and both bounds absent (the bounds are absent only in
the zero-file case). -/
theorem scan_bounds_invariant (parseTs : String → Option Timestamp)
    (stdoutLines : List String) (r : ScanResult)
    (h : scan_source_dir parseTs stdoutLines = .ok r) :
    (stdoutLines = [] → r = ⟨[], none, none⟩) ∧
    (stdoutLines ≠ [] →
      r.oldest ≠ none ∧ r.newest ≠ none ∧
      r.oldest.getD 0 ≤ r.newest.getD 0 ∧ r.found_extensions ≠ []) := by
  constructor
  · rintro rfl
    simp only [scan_source_dir, scanLines, Except.ok.injEq] at h
    exact h.symm
  · intro hne
    cases stdoutLines with
    | nil => exact absurd rfl hne
    | cons line rest =>
      unfold scan_source_dir scanLines at h
      cases hp : parseLine parseTs line with
      | none => rw [hp] at h; cases h
      | some v =>
        obtain ⟨m, fp⟩ := v
        rw [hp] at h
        obtain ⟨o, n, ho, hn, hon, hfe⟩ :=
          scanLines_good parseTs rest _ r (scanStep_good _ m fp) h
        rw [ho, hn]
        exact ⟨by simp, by simp, by simpa using hon, hfe⟩

/-- Witness for C6 on a concrete two-file listing. -/
theorem scan_bounds_invariant_witness :
    (ScanResult.mk [("jpg", 1), ("raw", 1)] (some 3) (some 5)).oldest ≠ none ∧
    (ScanResult.mk [("jpg", 1), ("raw", 1)] (some 3) (some 5)).newest ≠ none ∧
    (ScanResult.mk [("jpg", 1), ("raw", 1)] (some 3) (some 5)).oldest.getD 0 ≤
      (ScanResult.mk [("jpg", 1), ("raw", 1)] (some 3) (some 5)).newest.getD 0 ∧
    (ScanResult.mk [("jpg", 1), ("raw", 1)] (some 3) (some 5)).found_extensions ≠ [] :=
  (scan_bounds_invariant decTs ["5;a.JPG", "3;b.raw"]
    ⟨[("jpg", 1), ("raw", 1)], some 3, some 5⟩ rfl).2 (by decide)

/-- Claim C8: a listing containing at least one line whose timestamp cannot be
parsed, or that does not match the `timestamp;path` shape, makes the whole scan
fail (the raised error names a malformed line); no partial scan result is
produced, so no such file is silently skipped. -/
theorem malformed_line_fatal (parseTs : String → Option Timestamp)
    (stdoutLines : List String)
    (h : ∃ l ∈ stdoutLines, parseLine parseTs l = none) :
    isScanFailure (scan_source_dir parseTs stdoutLines) = true ∧
    ∀ r : ScanResult, scan_source_dir parseTs stdoutLines ≠ .ok r := by
  obtain ⟨bad, _, _, herr⟩ :=
    scanLines_error_of_bad parseTs stdoutLines ⟨[], none, none⟩ h
  have herr' : scan_source_dir parseTs stdoutLines = .error (.malformedLine bad) := herr
  rw [herr']
  exact ⟨rfl, fun r hr => by cases hr⟩

/-- Witness for C8: one well-formed and one malformed line. -/
theorem malformed_line_fatal_witness :
    isScanFailure (scan_source_dir decTs ["3;a.jpg", "oops"]) = true ∧
    ∀ r : ScanResult, scan_source_dir decTs ["3;a.jpg", "oops"] ≠ .ok r :=
  malformed_line_fatal decTs ["3;a.jpg", "oops"] ⟨"oops", by decide, by decide⟩

lemma drop_append_le {α : Type} :
    ∀ (n : Nat) (l₁ l₂ : List α), n ≤ l₁.length →
      (l₁ ++ l₂).drop n = l₁.drop n ++ l₂
  | 0, _, _, _ => by simp
  | n + 1, [], _, h => by simp at h
  | n + 1, a :: l₁, l₂, h => by
    simp only [List.cons_append, List.drop_succ_cons]
    exact drop_append_le n l₁ l₂ (Nat.le_of_succ_le_succ h)

lemma lastN_length_le (n : Nat) (l : List String) : (lastN n l).length ≤ n := by
  simp only [lastN, List.length_drop]
  omega

lemma lastN_append_lastN (n : Nat) (X rs : List String) :
    lastN n (lastN n X ++ rs) = lastN n (X ++ rs) := by
  unfold lastN
  rw [← drop_append_le (X.length - n) X rs (Nat.sub_le _ _), List.drop_drop]
  congr 1
  simp only [List.length_append, List.length_drop]
  omega

lemma historyRead_appendMany (max_entries : Nat) :
    ∀ (records : List String) (c : Option (List String)),
      (historyRead c).length ≤ max_entries →
      historyRead (appendMany c records max_entries) =
        lastN max_entries (historyRead c ++ records)
  | [], c, h => by
    simp [appendMany, lastN, Nat.sub_eq_zero_of_le h]
  | r :: rs, c, h => by
    have hstep : historyAppend c r max_entries =
        lastN max_entries (historyRead c ++ [r]) := rfl
    have hlen : (historyRead (some (historyAppend c r max_entries))).length ≤
        max_entries := by
      simpa [historyRead, hstep] using lastN_length_le max_entries (historyRead c ++ [r])
    have happ : appendMany c (r :: rs) max_entries =
        appendMany (some (historyAppend c r max_entries)) rs max_entries := by
      simp [appendMany]
    rw [happ, historyRead_appendMany max_entries rs _ hlen]
    simp only [historyRead, Option.getD_some, hstep]
    rw [lastN_append_lastN]
    simp

/-- Claim C3 (the Session History Store is modelled from the spec, §4.5): the
per-scenario store is a bounded ring buffer.  Appending `max_entries + k`
records to a scenario with no existing store leaves exactly the last
`max_entries` records in original chronological order, and `read` on a
scenario with no existing store returns the empty sequence rather than an
error. -/
theorem history_ring_buffer (max_entries k : Nat) (records : List String)
    (hlen : records.length = max_entries + k) :
    historyRead none = [] ∧
    historyRead (appendMany none records max_entries) = records.drop k ∧
    (records.drop k).length = max_entries := by
  refine ⟨rfl, ?_, by simp [hlen]⟩
  rw [historyRead_appendMany max_entries records none (by simp [historyRead])]
  simp only [historyRead, Option.getD_none, List.nil_append, lastN]
  congr 1
  omega

/-- Witness for C3: three records through a two-entry buffer. -/
theorem history_ring_buffer_witness :
    historyRead none = [] ∧
    historyRead (appendMany none ["r1", "r2", "r3"] 2) = ["r1", "r2", "r3"].drop 1 ∧
    (["r1", "r2", "r3"].drop 1).length = 2 :=
  history_ring_buffer 2 1 ["r1", "r2", "r3"] (by decide)

lemma foldl_append_flatMap (f : String → List String) :
    ∀ (o acc : List String),
      o.foldl (fun a e => a ++ f e) acc = acc ++ o.flatMap f
  | [], acc => by simp
  | e :: rest, acc => by
    simp only [List.foldl_cons, List.flatMap_cons]
    rw [foldl_append_flatMap f rest]
    simp [List.append_assoc]

lemma buildCmd_split (dry : Bool) (f t : Option Timestamp) (o : List String)
    (s d : String) :
    buildCmd dry f t o s d = baseCmd dry f t ++ includeArgs o ++ [s, d] := by
  simp only [buildCmd, baseCmd, includeArgs, foldl_append_flatMap, List.append_assoc]

lemma baseCmd_dry (dry : Bool) (f t : Option Timestamp) :
    baseCmd dry f t =
      [rcloneExe, "--ignore-case", "copy", "-vv"] ++
        (if dry then ["--dry-run"] else []) ++ timeArgs f t := by
  cases dry <;> cases f <;> cases t <;> rfl

lemma insertDryRun_base (rest : List String) :
    insertDryRun (rcloneExe :: "--ignore-case" :: "copy" :: "-vv" :: rest) =
      rcloneExe :: "--ignore-case" :: "copy" :: "-vv" :: "--dry-run" :: rest := rfl

lemma buildCmd_dry_insert (f t : Option Timestamp) (o : List String) (s d : String) :
    buildCmd true f t o s d = insertDryRun (buildCmd false f t o s d) := by
  rw [buildCmd_split, buildCmd_split, baseCmd_dry, baseCmd_dry]
  simp [insertDryRun_base]

/-- Claim C10: the dry-run flag does not interfere with scanning or with any
other part of the transfer command.  A session with `dry_run` on has exactly
the same outcome as the same session with it off, except that a completed
session's command gains the single `--dry-run` flag at its fixed position;
in particular the scan and its result are identical (the scan takes no
dry-run input at all). -/
theorem dry_run_noninterference (cfg : UserConfig) (scenario : String)
    (f t : Option Timestamp) (env : SessionEnv) (o : List String) (s d : String) :
    buildCmd true f t o s d = insertDryRun (buildCmd false f t o s d) ∧
    import_ cfg scenario f t true env = withDryRun (import_ cfg scenario f t false env) := by
  refine ⟨buildCmd_dry_insert f t o s d, ?_⟩
  unfold import_
  cases List.lookup scenario cfg.scenarios with
  | none => rfl
  | some sourceRel =>
    cases hse : env.sourceExists with
    | false => rfl
    | true =>
      simp only [Bool.not_true, Bool.false_eq_true, if_false]
      cases hscan : scan_source_dir env.parseTs env.stdoutLines with
      | error e => rfl
      | ok scan_result =>
        cases hc1 : env.confirm1 with
        | false => rfl
        | true =>
          simp only [Bool.not_true, Bool.false_eq_true, if_false]
          cases hc2 : env.confirm2 with
          | false => rfl
          | true =>
            simp only [Bool.not_true, Bool.false_eq_true, if_false, withDryRun]
            rw [buildCmd_dry_insert]

/-- Counterexample to C1 as stated: a session with no user bounds whose scan
produced `oldest = 3`, `newest = 7` hands the transfer tool a command with no
time-bound arguments at all — the effective window is not the scan window. -/
theorem window_no_fallback_cex :
    scan_source_dir decTs ["3;a.jpg", "7;b.jpg"] = .ok ⟨[("jpg", 2)], some 3, some 7⟩ ∧
    import_ ⟨"root", ["jpg"], [], [("sc", "cam")]⟩ "sc" none none false
        ⟨"mnt", true, decTs, ["3;a.jpg", "7;b.jpg"], ["jpg"], true, true, 0⟩ =
      .completed ["rclone", "--ignore-case", "copy", "-vv",
        "--include", "*.jpg", "mnt/cam", "root/sc"] 0 ∧
    "--max-age" ∉ ["rclone", "--ignore-case", "copy", "-vv",
        "--include", "*.jpg", "mnt/cam", "root/sc"] ∧
    "--min-age" ∉ ["rclone", "--ignore-case", "copy", "-vv",
        "--include", "*.jpg", "mnt/cam", "root/sc"] := by
  refine ⟨rfl, rfl, by decide, by decide⟩

/-- Claim C1 (amended): when the operator supplies no `from` and no `to` bound,
no fallback to the scan bounds occurs.  The built transfer command carries no
time-bound arguments at all (`baseCmd` reduces to the fixed head plus at most
the dry-run flag), and the session outcome is independent of the listing the
scan consumed, whenever the scan succeeds.  The provided code resolves no
window and records no history. -/
theorem window_no_fallback (cfg : UserConfig) (scenario : String) (dry : Bool)
    (o : List String) (s d mp : String) (pt : String → Option Timestamp)
    (lines₁ lines₂ : List String) (c1 c2 : Bool) (te : Nat) (r₁ r₂ : ScanResult)
    (h₁ : scan_source_dir pt lines₁ = .ok r₁)
    (h₂ : scan_source_dir pt lines₂ = .ok r₂) :
    buildCmd dry none none o s d =
      (if dry then [rcloneExe, "--ignore-case", "copy", "-vv", "--dry-run"]
       else [rcloneExe, "--ignore-case", "copy", "-vv"]) ++ includeArgs o ++ [s, d] ∧
    import_ cfg scenario none none dry ⟨mp, true, pt, lines₁, o, c1, c2, te⟩ =
      import_ cfg scenario none none dry ⟨mp, true, pt, lines₂, o, c1, c2, te⟩ := by
  constructor
  · rw [buildCmd_split, baseCmd_dry]
    cases dry <;> simp [timeArgs]
  · unfold import_
    cases List.lookup scenario cfg.scenarios with
    | none => rfl
    | some sourceRel =>
      simp only [h₁, h₂]

/-- Witness for C1 (amended) on concrete sessions whose scans both succeed. -/
theorem window_no_fallback_witness :
    buildCmd false none none ["jpg"] "mnt/cam" "root/sc" =
      (if false then [rcloneExe, "--ignore-case", "copy", "-vv", "--dry-run"]
       else [rcloneExe, "--ignore-case", "copy", "-vv"]) ++
        includeArgs ["jpg"] ++ ["mnt/cam", "root/sc"] ∧
    import_ ⟨"root", ["jpg"], [], [("sc", "cam")]⟩ "sc" none none false
        ⟨"mnt", true, decTs, ["3;a.jpg", "7;b.jpg"], ["jpg"], true, true, 0⟩ =
      import_ ⟨"root", ["jpg"], [], [("sc", "cam")]⟩ "sc" none none false
        ⟨"mnt", true, decTs, ["100;z.png"], ["jpg"], true, true, 0⟩ :=
  window_no_fallback ⟨"root", ["jpg"], [], [("sc", "cam")]⟩ "sc" false
    ["jpg"] "mnt/cam" "root/sc" "mnt" decTs
    ["3;a.jpg", "7;b.jpg"] ["100;z.png"] true true 0
    ⟨[("jpg", 2)], some 3, some 7⟩ ⟨[("png", 1)], some 100, some 100⟩ rfl rfl

/-- Counterexample to C2 as stated: `["raw", "jpg"]` and `["jpg", "raw"]` are
both legal iteration orders of the same include set, yet the built argument
sequences differ, and the filters follow the iteration order — the code never
sorts them, so the output is neither lexicographic nor byte-identical across
runs. -/
theorem include_order_cex :
    IsSetIterOrder ["jpg", "raw"] ["raw", "jpg"] ∧
    IsSetIterOrder ["jpg", "raw"] ["jpg", "raw"] ∧
    buildCmd false none none ["raw", "jpg"] "s" "d" =
      ["rclone", "--ignore-case", "copy", "-vv",
       "--include", "*.raw", "--include", "*.jpg", "s", "d"] ∧
    buildCmd false none none ["raw", "jpg"] "s" "d" ≠
      buildCmd false none none ["jpg", "raw"] "s" "d" := by
  refine ⟨by decide, by decide, by decide, by decide⟩

/-- Claim C2 (amended): the builder emits exactly one inclusion filter per
distinct extension, but in the set-iteration order, which is not guaranteed to
be lexicographic or stable across runs.  For any two legal iteration orders of
include sets with the same elements (in any insertion order), the built
argument sequences are permutations of each other, with everything outside
the filter section fixed. -/
theorem include_filters_perm (dry : Bool) (f t : Option Timestamp) (s d : String)
    (xs₁ xs₂ o₁ o₂ : List String)
    (h₁ : IsSetIterOrder xs₁ o₁) (h₂ : IsSetIterOrder xs₂ o₂)
    (hxs : xs₁.toFinset = xs₂.toFinset) :
    buildCmd dry f t o₁ s d = baseCmd dry f t ++ includeArgs o₁ ++ [s, d] ∧
    o₁.Nodup ∧ o₁.toFinset = xs₁.toFinset ∧
    (buildCmd dry f t o₁ s d).Perm (buildCmd dry f t o₂ s d) := by
  obtain ⟨hn₁, hsub₁, hsup₁⟩ := h₁
  obtain ⟨hn₂, hsub₂, hsup₂⟩ := h₂
  have ho₁ : o₁.toFinset = xs₁.toFinset :=
    List.toFinset.ext fun x => ⟨hsub₁ x, hsup₁ x⟩
  have ho₂ : o₂.toFinset = xs₂.toFinset :=
    List.toFinset.ext fun x => ⟨hsub₂ x, hsup₂ x⟩
  have hperm : o₁.Perm o₂ :=
    List.perm_of_nodup_nodup_toFinset_eq hn₁ hn₂ (by rw [ho₁, hxs, ho₂])
  refine ⟨buildCmd_split dry f t o₁ s d, hn₁, ho₁, ?_⟩
  rw [buildCmd_split, buildCmd_split, List.append_assoc, List.append_assoc]
  exact ((hperm.flatMap_right _).append_right _).append_left _

/-- Witness for C2 (amended): the same include set supplied in two insertion
orders, iterated in two different legal orders. -/
theorem include_filters_perm_witness :
    buildCmd false none none ["raw", "jpg"] "s" "d" =
      baseCmd false none none ++ includeArgs ["raw", "jpg"] ++ ["s", "d"] ∧
    (["raw", "jpg"] : List String).Nodup ∧
    (["raw", "jpg"] : List String).toFinset = (["jpg", "raw"] : List String).toFinset ∧
    (buildCmd false none none ["raw", "jpg"] "s" "d").Perm
      (buildCmd false none none ["jpg", "raw"] "s" "d") :=
  include_filters_perm false none none "s" "d" ["jpg", "raw"] ["raw", "jpg", "jpg"]
    ["raw", "jpg"] ["jpg", "raw"] (by decide) (by decide) (by decide)

/-- Claim C4, evaluated at the failing input: a confirmed session in which the
transfer tool exits with status 1 still completes normally and the session's
own exit status is 0 — the code runs the subprocess without inspecting its
returncode, so the nonzero tool exit is not surfaced and the session exit code
is not nonzero as the claim requires. -/
theorem transfer_exit_ignored :
    import_ ⟨"root", ["jpg"], [], [("sc", "cam")]⟩ "sc" none none false
        ⟨"mnt", true, decTs, ["3;a.jpg"], ["jpg"], true, true, 1⟩ =
      .completed ["rclone", "--ignore-case", "copy", "-vv",
        "--include", "*.jpg", "mnt/cam", "root/sc"] 1 ∧
    exitCode (.completed ["rclone", "--ignore-case", "copy", "-vv",
        "--include", "*.jpg", "mnt/cam", "root/sc"] 1) = 0 :=
  ⟨rfl, rfl⟩

/-- Claim C7: a session whose resolved source path does not exist stops with
the distinct source-unavailable outcome before the listing is consumed (the
outcome is the same for every listing), while a source that exists but lists
nothing scans to the empty result and the session never reports the source as
unavailable — the two conditions are distinguished. -/
theorem source_unavailable_before_scan (cfg : UserConfig)
    (scenario sourceRel : String) (f t : Option Timestamp) (dry : Bool)
    (mp : String) (pt : String → Option Timestamp) (lines : List String)
    (o : List String) (c1 c2 : Bool) (te : Nat)
    (hsc : List.lookup scenario cfg.scenarios = some sourceRel) :
    import_ cfg scenario f t dry ⟨mp, false, pt, lines, o, c1, c2, te⟩ =
      .sourceUnavailable ∧
    scan_source_dir pt [] = .ok ⟨[], none, none⟩ ∧
    import_ cfg scenario f t dry ⟨mp, true, pt, [], o, c1, c2, te⟩ ≠
      .sourceUnavailable := by
  refine ⟨?_, rfl, ?_⟩
  · unfold import_
    rw [hsc]
    rfl
  · unfold import_
    rw [hsc]
    cases c1 <;> cases c2 <;> simp [scan_source_dir, scanLines]

/-- Witness for C7 on a concrete configuration. -/
theorem source_unavailable_before_scan_witness :
    import_ ⟨"root", ["jpg"], [], [("sc", "cam")]⟩ "sc" none none false
        ⟨"mnt", false, decTs, ["3;a.jpg"], ["jpg"], true, true, 0⟩ =
      .sourceUnavailable ∧
    scan_source_dir decTs [] = .ok ⟨[], none, none⟩ ∧
    import_ ⟨"root", ["jpg"], [], [("sc", "cam")]⟩ "sc" none none false
        ⟨"mnt", true, decTs, [], ["jpg"], true, true, 0⟩ ≠
      .sourceUnavailable :=
  source_unavailable_before_scan ⟨"root", ["jpg"], [], [("sc", "cam")]⟩ "sc" "cam"
    none none false "mnt" decTs ["3;a.jpg"] ["jpg"] true true 0 (by decide)

/-- Claim C9: a session invoked with a scenario name absent from the configured
scenarios mapping stops with the unknown-scenario outcome regardless of every
other session input (so before any filesystem access to a source path — the
outcome does not depend on the source root, source existence, or listing), and
the session exit code is nonzero. -/
theorem unknown_scenario_first (cfg : UserConfig) (scenario : String)
    (f t : Option Timestamp) (dry : Bool) (env env' : SessionEnv)
    (h : List.lookup scenario cfg.scenarios = none) :
    import_ cfg scenario f t dry env = .unknownScenario ∧
    import_ cfg scenario f t dry env = import_ cfg scenario f t dry env' ∧
    exitCode (import_ cfg scenario f t dry env) = 1 := by
  have h1 : import_ cfg scenario f t dry env = .unknownScenario := by
    unfold import_; rw [h]
  have h2 : import_ cfg scenario f t dry env' = .unknownScenario := by
    unfold import_; rw [h]
  rw [h1, h2]
  exact ⟨rfl, rfl, rfl⟩

/-- Witness for C9: the name `"b"` is absent from a configuration that only
knows `"a"`; two sessions with entirely different environments agree. -/
theorem unknown_scenario_first_witness :
    import_ ⟨"root", [], [], [("a", "s")]⟩ "b" none none false
        ⟨"mnt", true, decTs, ["3;a.jpg"], [], true, true, 0⟩ = .unknownScenario ∧
    import_ ⟨"root", [], [], [("a", "s")]⟩ "b" none none false
        ⟨"mnt", true, decTs, ["3;a.jpg"], [], true, true, 0⟩ =
      import_ ⟨"root", [], [], [("a", "s")]⟩ "b" none none false
        ⟨"other", false, decTs, [], [], false, false, 7⟩ ∧
    exitCode (import_ ⟨"root", [], [], [("a", "s")]⟩ "b" none none false
        ⟨"mnt", true, decTs, ["3;a.jpg"], [], true, true, 0⟩) = 1 :=
  unknown_scenario_first ⟨"root", [], [], [("a", "s")]⟩ "b" none none false
    ⟨"mnt", true, decTs, ["3;a.jpg"], [], true, true, 0⟩
    ⟨"other", false, decTs, [], [], false, false, 7⟩ (by decide)

end PhotoImport
